import Mathlib

/-!
Shallow embedding of the vibrator HAL connection controller
(`HalController` declared in `libs/gui/include/gui/ISurfaceComposer.h`,
second document of the file, lines 250-333).

The header declares the controller class: its two constructors, the eleven
public operations (each a `final override` of the `HalWrapper` surface), and
the private pieces `mHalConnector`, `mConnectedHalMutex`, `mConnectedHal`,
`initHal`, `processHalResult` and the generic `apply` template.  The bodies
of `initHal`, `processHalResult`, `apply` and the public operations live in a
translation unit that is not part of this excerpt, so those bodies are
modelled from the specification (each such definition carries a
`Modelled from the spec:` doc comment); the constructor initialisation list,
the field layout, and the operation signatures are taken from the header.

Handles, effects, callbacks and schedulers are identified by numeric ids.
The external hardware service and the connection factory are modelled by an
oracle structure `Hardware`.  The controller state carries, besides the
fields of the C++ object (`halConnector`, `callbackScheduler`,
`connectedHal`), ghost instrumentation recording the factory calls made, the
scheduler reference passed to each factory call, the hardware calls executed,
the `apply` invocations, and the requests forwarded to the completion
scheduler.
-/

set_option autoImplicit false

namespace Vibrator

/-- A live connection handle, identified by a numeric id. -/
abbrev Handle := Nat

/-- A predefined effect type (`hardware::vibrator::Effect`), as a numeric id. -/
abbrev Effect := Nat

/-- An effect strength (`hardware::vibrator::EffectStrength`), as a numeric id. -/
abbrev EffectStrength := Nat

/-- A composition primitive (`hardware::vibrator::CompositeEffect`), as a numeric id. -/
abbrev CompositeEffect := Nat

/-- A capabilities bitset, as a number. -/
abbrev Capabilities := Nat

/-- Identity of a `CallbackScheduler` instance. -/
abbrev SchedulerId := Nat

/-- Identity of a caller-supplied completion callback. -/
abbrev CallbackId := Nat

/-- Modelled from the spec: `CallResult<T>` — tagged result of one operation:
`Ok(T)`, `FailedUnsupported` (not a connection problem), `FailedTransient`
(service reachable but the call failed), `FailedUnavailable` (connection dead). -/
inductive HalResult (T : Type) where
  | ok (value : T)
  | failedUnsupported
  | failedTransient
  | failedUnavailable
deriving DecidableEq, Repr

/-- A request submitted to the Completion Scheduler: a deadline in
milliseconds and the callback to fire when it elapses. -/
structure ScheduleReq where
  deadlineMs : Nat
  callback : CallbackId
deriving DecidableEq, Repr

/-- State of one `HalController` object.  The first three fields are the C++
object's own fields (`mHalConnector`, the `mCallbackScheduler` passed to the
`HalWrapper` base, `mConnectedHal`); the remaining fields are ghost
instrumentation for the analysis, not controller fields. -/
structure ControllerState where
  /-- Identity of the `HalConnector` stored at construction (`mHalConnector`). -/
  halConnector : Nat
  /-- Identity of the `CallbackScheduler` passed to the `HalWrapper` base. -/
  callbackScheduler : SchedulerId
  /-- The current-handle slot `mConnectedHal`; `none` models `nullptr`. -/
  connectedHal : Option Handle
  /-- Ghost: number of Connection Factory calls made so far. -/
  factoryCalls : Nat
  /-- Ghost: number of `apply` invocations made so far. -/
  applyCalls : Nat
  /-- Ghost: handles each executed hardware call ran against, in order. -/
  halCalls : List Handle
  /-- Ghost: the scheduler reference passed to each factory call, in order. -/
  connectLog : List SchedulerId
  /-- Ghost: the requests forwarded to the Completion Scheduler, in order. -/
  scheduled : List ScheduleReq
deriving DecidableEq, Repr

/-- The two-argument constructor from the header: stores the connector in
`mHalConnector`, passes the scheduler to the `HalWrapper` base class, and
initialises `mConnectedHal` to `nullptr`.  Ghost instrumentation starts empty. -/
def mkHalController (connector : Nat) (scheduler : SchedulerId) : ControllerState :=
  { halConnector := connector
    callbackScheduler := scheduler
    connectedHal := none
    factoryCalls := 0
    applyCalls := 0
    halCalls := []
    connectLog := []
    scheduled := [] }

/-- Modelled from the spec: the external collaborators as a deterministic
oracle.  `factory` is the Connection Factory
(`HalConnector::connect(scheduler)`), indexed by the scheduler reference it
is handed and by which factory call this is (so distinct connection attempts
may produce distinct handles or failures).  The per-operation fields give the
hardware service's response to each command on a given handle; for
`performEffectR` and `performComposedEffectR` an `ok` value is the reported
effect duration in milliseconds. -/
structure Hardware where
  factory : SchedulerId → Nat → Option Handle
  pingR : Handle → HalResult Unit
  onR : Handle → Nat → HalResult Unit
  offR : Handle → HalResult Unit
  setAmplitudeR : Handle → Int → HalResult Unit
  setExternalControlR : Handle → Bool → HalResult Unit
  alwaysOnEnableR : Handle → Int → Effect → EffectStrength → HalResult Unit
  alwaysOnDisableR : Handle → Int → HalResult Unit
  getCapabilitiesR : Handle → HalResult Capabilities
  getSupportedEffectsR : Handle → HalResult (List Effect)
  performEffectR : Handle → Effect → EffectStrength → HalResult Nat
  performComposedEffectR : Handle → List CompositeEffect → HalResult Nat

/-- Modelled from the spec: `initHal` / `ensureConnected` (body not in the
excerpt) — under the state lock: if the current slot is empty, invoke the
Connection Factory, passing the controller's own scheduler; on success store
the returned handle as current and return it; on failure leave the slot empty
and return nothing (reported to the caller as `FailedUnavailable`).  If the
slot is non-empty, return the existing shared reference without contacting
the factory.  The ghost fields record each factory call and the scheduler
reference passed to it. -/
def initHal (hw : Hardware) (s : ControllerState) : Option Handle × ControllerState :=
  match s.connectedHal with
  | some h => (some h, s)
  | none =>
      let res := hw.factory s.callbackScheduler s.factoryCalls
      (res, { s with
                connectedHal := res
                factoryCalls := s.factoryCalls + 1
                connectLog := s.connectLog ++ [s.callbackScheduler] })

/-- Modelled from the spec: `processHalResult` (body not in the excerpt) —
classify one hardware result obtained against handle `h`: success is returned
as `Ok`; unsupported is returned as `FailedUnsupported` with the handle kept
current; any other failure atomically clears the current slot only if it
still references this same handle (leaving it unchanged if another caller
already replaced it), and is returned as `FailedUnavailable`. -/
def processHalResult {T : Type} (result : HalResult T) (h : Handle)
    (s : ControllerState) : HalResult T × ControllerState :=
  match result with
  | .ok v => (.ok v, s)
  | .failedUnsupported => (.failedUnsupported, s)
  | .failedTransient =>
      (.failedUnavailable,
        if s.connectedHal = some h then { s with connectedHal := none } else s)
  | .failedUnavailable =>
      (.failedUnavailable,
        if s.connectedHal = some h then { s with connectedHal := none } else s)

/-- One hardware operation against a handle: its tagged result together with
the requests it forwarded to the Completion Scheduler while executing.  The
hardware function never touches the controller state. -/
abbrev HalFn (T : Type) := Handle → HalResult T × List ScheduleReq

/-- Modelled from the spec: the generic `apply` template (body not in the
excerpt) — call `initHal`; if it yields no handle, return `FailedUnavailable`
immediately; otherwise invoke the hardware operation against the obtained
handle (recording the call and any schedule requests it made) and classify
the result with `processHalResult`. -/
def apply {T : Type} (hw : Hardware) (halFn : HalFn T)
    (s : ControllerState) : HalResult T × ControllerState :=
  let s0 := { s with applyCalls := s.applyCalls + 1 }
  match initHal hw s0 with
  | (none, s1) => (.failedUnavailable, s1)
  | (some h, s1) =>
      let (r, reqs) := halFn h
      processHalResult r h
        { s1 with halCalls := s1.halCalls ++ [h], scheduled := s1.scheduled ++ reqs }

/-- Modelled from the spec: the retry policy shared by every public
operation (bodies not in the excerpt) — call `apply`, and if the result is
`FailedUnavailable`, call `apply` once more; any further failure is returned
to the caller as-is. -/
def applyRetry {T : Type} (hw : Hardware) (halFn : HalFn T)
    (s : ControllerState) : HalResult T × ControllerState :=
  match apply hw halFn s with
  | (.failedUnavailable, s1) => apply hw halFn s1
  | r => r

/-- The hardware function dispatched by `ping`. -/
def pingFn (hw : Hardware) : HalFn Unit :=
  fun h => (hw.pingR h, [])

/-- Modelled from the spec: the hardware function dispatched by `on` — power
on with a timeout and a completion callback; the forward to the scheduler
(deadline derived from the timeout, bound to the callback) happens only after
hardware acceptance of the command. -/
def onFn (hw : Hardware) (timeoutMs : Nat) (cb : CallbackId) : HalFn Unit :=
  fun h =>
    match hw.onR h timeoutMs with
    | .ok _ => (.ok (), [⟨timeoutMs, cb⟩])
    | r => (r, [])

/-- The hardware function dispatched by `off`. -/
def offFn (hw : Hardware) : HalFn Unit :=
  fun h => (hw.offR h, [])

/-- The hardware function dispatched by `setAmplitude`. -/
def setAmplitudeFn (hw : Hardware) (amplitude : Int) : HalFn Unit :=
  fun h => (hw.setAmplitudeR h amplitude, [])

/-- The hardware function dispatched by `setExternalControl`. -/
def setExternalControlFn (hw : Hardware) (enabled : Bool) : HalFn Unit :=
  fun h => (hw.setExternalControlR h enabled, [])

/-- The hardware function dispatched by `alwaysOnEnable`. -/
def alwaysOnEnableFn (hw : Hardware) (id : Int) (effect : Effect)
    (strength : EffectStrength) : HalFn Unit :=
  fun h => (hw.alwaysOnEnableR h id effect strength, [])

/-- The hardware function dispatched by `alwaysOnDisable`. -/
def alwaysOnDisableFn (hw : Hardware) (id : Int) : HalFn Unit :=
  fun h => (hw.alwaysOnDisableR h id, [])

/-- The hardware function dispatched by `getCapabilities`. -/
def getCapabilitiesFn (hw : Hardware) : HalFn Capabilities :=
  fun h => (hw.getCapabilitiesR h, [])

/-- The hardware function dispatched by `getSupportedEffects`. -/
def getSupportedEffectsFn (hw : Hardware) : HalFn (List Effect) :=
  fun h => (hw.getSupportedEffectsR h, [])

/-- Modelled from the spec: the hardware function dispatched by
`performEffect` — play a one-shot effect; on acceptance the hardware reports
the effect duration, and a schedule request for that duration bound to the
caller's callback is forwarded to the scheduler only after acceptance. -/
def performEffectFn (hw : Hardware) (effect : Effect) (strength : EffectStrength)
    (cb : CallbackId) : HalFn Nat :=
  fun h =>
    match hw.performEffectR h effect strength with
    | .ok d => (.ok d, [⟨d, cb⟩])
    | r => (r, [])

/-- Modelled from the spec: the hardware function dispatched by
`performComposedEffect` — play a composed sequence of primitives; on
acceptance the hardware reports a total duration and the schedule request is
forwarded only after acceptance. -/
def performComposedEffectFn (hw : Hardware) (prims : List CompositeEffect)
    (cb : CallbackId) : HalFn Unit :=
  fun h =>
    match hw.performComposedEffectR h prims with
    | .ok d => (.ok (), [⟨d, cb⟩])
    | .failedUnsupported => (.failedUnsupported, [])
    | .failedTransient => (.failedTransient, [])
    | .failedUnavailable => (.failedUnavailable, [])

namespace HalController

/-- `HalController::ping`: `apply` with the one-retry policy. -/
def ping (hw : Hardware) : ControllerState → HalResult Unit × ControllerState :=
  applyRetry hw (pingFn hw)

/-- `HalController::on(timeout, completionCallback)`. -/
def «on» (hw : Hardware) (timeoutMs : Nat) (cb : CallbackId) :
    ControllerState → HalResult Unit × ControllerState :=
  applyRetry hw (onFn hw timeoutMs cb)

/-- `HalController::off`. -/
def off (hw : Hardware) : ControllerState → HalResult Unit × ControllerState :=
  applyRetry hw (offFn hw)

/-- `HalController::setAmplitude(amplitude)`. -/
def setAmplitude (hw : Hardware) (amplitude : Int) :
    ControllerState → HalResult Unit × ControllerState :=
  applyRetry hw (setAmplitudeFn hw amplitude)

/-- `HalController::setExternalControl(enabled)`. -/
def setExternalControl (hw : Hardware) (enabled : Bool) :
    ControllerState → HalResult Unit × ControllerState :=
  applyRetry hw (setExternalControlFn hw enabled)

/-- `HalController::alwaysOnEnable(id, effect, strength)`. -/
def alwaysOnEnable (hw : Hardware) (id : Int) (effect : Effect)
    (strength : EffectStrength) :
    ControllerState → HalResult Unit × ControllerState :=
  applyRetry hw (alwaysOnEnableFn hw id effect strength)

/-- `HalController::alwaysOnDisable(id)`. -/
def alwaysOnDisable (hw : Hardware) (id : Int) :
    ControllerState → HalResult Unit × ControllerState :=
  applyRetry hw (alwaysOnDisableFn hw id)

/-- `HalController::getCapabilities`. -/
def getCapabilities (hw : Hardware) :
    ControllerState → HalResult Capabilities × ControllerState :=
  applyRetry hw (getCapabilitiesFn hw)

/-- `HalController::getSupportedEffects`. -/
def getSupportedEffects (hw : Hardware) :
    ControllerState → HalResult (List Effect) × ControllerState :=
  applyRetry hw (getSupportedEffectsFn hw)

/-- `HalController::performEffect(effect, strength, completionCallback)`,
returning the effect's expected duration. -/
def performEffect (hw : Hardware) (effect : Effect) (strength : EffectStrength)
    (cb : CallbackId) : ControllerState → HalResult Nat × ControllerState :=
  applyRetry hw (performEffectFn hw effect strength cb)

/-- `HalController::performComposedEffect(primitiveEffects, completionCallback)`. -/
def performComposedEffect (hw : Hardware) (prims : List CompositeEffect)
    (cb : CallbackId) : ControllerState → HalResult Unit × ControllerState :=
  applyRetry hw (performComposedEffectFn hw prims cb)

end HalController

/-- One public controller operation together with its arguments. -/
inductive Op where
  | ping
  | «on» (timeoutMs : Nat) (cb : CallbackId)
  | off
  | setAmplitude (amplitude : Int)
  | setExternalControl (enabled : Bool)
  | alwaysOnEnable (id : Int) (effect : Effect) (strength : EffectStrength)
  | alwaysOnDisable (id : Int)
  | getCapabilities
  | getSupportedEffects
  | performEffect (effect : Effect) (strength : EffectStrength) (cb : CallbackId)
  | performComposedEffect (prims : List CompositeEffect) (cb : CallbackId)
deriving DecidableEq, Repr

/-- The controller state reached by executing one public operation. -/
def step (hw : Hardware) (op : Op) (s : ControllerState) : ControllerState :=
  match op with
  | .ping => (HalController.ping hw s).2
  | .«on» t cb => (HalController.«on» hw t cb s).2
  | .off => (HalController.off hw s).2
  | .setAmplitude a => (HalController.setAmplitude hw a s).2
  | .setExternalControl e => (HalController.setExternalControl hw e s).2
  | .alwaysOnEnable i e st => (HalController.alwaysOnEnable hw i e st s).2
  | .alwaysOnDisable i => (HalController.alwaysOnDisable hw i s).2
  | .getCapabilities => (HalController.getCapabilities hw s).2
  | .getSupportedEffects => (HalController.getSupportedEffects hw s).2
  | .performEffect e st cb => (HalController.performEffect hw e st cb s).2
  | .performComposedEffect p cb => (HalController.performComposedEffect hw p cb s).2

/-- The controller state reached by executing a sequence of public
operations in order. -/
def run (hw : Hardware) (ops : List Op) (s : ControllerState) : ControllerState :=
  ops.foldl (fun t op => step hw op t) s

/-! ### Basic lemmas about `initHal` -/

/-- The handle `initHal` returns is exactly what the slot holds afterwards. -/
theorem initHal_fst (hw : Hardware) (s : ControllerState) :
    (initHal hw s).1 = ((initHal hw s).2).connectedHal := by
  unfold initHal
  cases hs : s.connectedHal <;> simp [hs]

/-- A non-empty slot short-circuits `initHal`: the existing reference is
returned and the state (in particular the factory-call count) is untouched. -/
theorem initHal_connected (hw : Hardware) (s : ControllerState) (h : Handle)
    (hs : s.connectedHal = some h) : initHal hw s = (some h, s) := by
  unfold initHal
  rw [hs]

/-- An empty slot makes `initHal` call the factory exactly once, with the
controller's own scheduler, and store whatever the factory returned. -/
theorem initHal_empty (hw : Hardware) (s : ControllerState)
    (hs : s.connectedHal = none) :
    initHal hw s =
      (hw.factory s.callbackScheduler s.factoryCalls,
       { s with
           connectedHal := hw.factory s.callbackScheduler s.factoryCalls
           factoryCalls := s.factoryCalls + 1
           connectLog := s.connectLog ++ [s.callbackScheduler] }) := by
  unfold initHal
  rw [hs]

/-- `initHal` touches only the slot and its own ghost log: connector identity,
scheduler identity, `apply` count, hardware-call log and schedule log are all
preserved.  In particular no hardware call is executed inside `initHal`
(the section that holds the slot lock). -/
theorem initHal_frame (hw : Hardware) (s : ControllerState) :
    ((initHal hw s).2).halConnector = s.halConnector ∧
    ((initHal hw s).2).callbackScheduler = s.callbackScheduler ∧
    ((initHal hw s).2).applyCalls = s.applyCalls ∧
    ((initHal hw s).2).halCalls = s.halCalls ∧
    ((initHal hw s).2).scheduled = s.scheduled := by
  unfold initHal
  cases hs : s.connectedHal <;> simp

/-- `initHal` appends to the connect log exactly the scheduler references it
passed to the factory, and every appended reference is the controller's own. -/
theorem initHal_connectLog (hw : Hardware) (s : ControllerState) :
    ((initHal hw s).2).connectLog = s.connectLog ∨
    ((initHal hw s).2).connectLog = s.connectLog ++ [s.callbackScheduler] := by
  unfold initHal
  cases hs : s.connectedHal <;> simp

/-! ### Basic lemmas about `processHalResult` -/

/-- Success and unsupported results leave the state untouched and are
returned as-is. -/
theorem processHalResult_keeps {T : Type} (h : Handle) (s : ControllerState) :
    (∀ v : T, processHalResult (.ok v) h s = (.ok v, s)) ∧
    processHalResult (.failedUnsupported : HalResult T) h s =
      (.failedUnsupported, s) := by
  constructor
  · intro v; rfl
  · rfl

/-- Any other failure is classified as `FailedUnavailable` and clears the
slot only when it still references the handle the call ran against. -/
theorem processHalResult_failure {T : Type} (r : HalResult T) (h : Handle)
    (s : ControllerState)
    (hr : r = .failedTransient ∨ r = .failedUnavailable) :
    processHalResult r h s =
      (.failedUnavailable,
       if s.connectedHal = some h then { s with connectedHal := none } else s) := by
  rcases hr with hr | hr <;> subst hr <;> rfl

/-! ### Characterization of `apply` -/

/-- `apply` with a live handle and a successful hardware call: the value is
returned, the slot keeps the handle, and exactly one hardware call (plus the
operation's schedule requests) is recorded. -/
theorem apply_connected_ok (hw : Hardware) {T : Type} (f : HalFn T)
    (s : ControllerState) (h : Handle) (v : T) (reqs : List ScheduleReq)
    (hs : s.connectedHal = some h) (hf : f h = (.ok v, reqs)) :
    apply hw f s =
      (.ok v,
       { s with
           applyCalls := s.applyCalls + 1
           halCalls := s.halCalls ++ [h]
           scheduled := s.scheduled ++ reqs }) := by
  simp [apply, initHal, processHalResult, hs, hf]

/-- `apply` with a live handle and an unsupported hardware call: the result
is `FailedUnsupported` and the handle remains current. -/
theorem apply_connected_unsupported (hw : Hardware) {T : Type} (f : HalFn T)
    (s : ControllerState) (h : Handle) (reqs : List ScheduleReq)
    (hs : s.connectedHal = some h) (hf : f h = (.failedUnsupported, reqs)) :
    apply hw f s =
      (.failedUnsupported,
       { s with
           applyCalls := s.applyCalls + 1
           halCalls := s.halCalls ++ [h]
           scheduled := s.scheduled ++ reqs }) := by
  simp [apply, initHal, processHalResult, hs, hf]

/-- `apply` with a live handle and any other hardware failure: the result is
classified as `FailedUnavailable` and the slot, which still references the
handle the call ran against, is cleared. -/
theorem apply_connected_failure (hw : Hardware) {T : Type} (f : HalFn T)
    (s : ControllerState) (h : Handle) (r : HalResult T) (reqs : List ScheduleReq)
    (hs : s.connectedHal = some h) (hf : f h = (r, reqs))
    (hr : r = .failedTransient ∨ r = .failedUnavailable) :
    apply hw f s =
      (.failedUnavailable,
       { s with
           connectedHal := none
           applyCalls := s.applyCalls + 1
           halCalls := s.halCalls ++ [h]
           scheduled := s.scheduled ++ reqs }) := by
  rcases hr with hr | hr <;> subst hr <;>
    simp [apply, initHal, processHalResult, hs, hf]

/-- `apply` with an empty slot and a failing factory: `FailedUnavailable` is
returned immediately, no hardware call is made, no schedule request is made,
and the slot stays empty. -/
theorem apply_empty_factory_fail (hw : Hardware) {T : Type} (f : HalFn T)
    (s : ControllerState)
    (hs : s.connectedHal = none)
    (hc : hw.factory s.callbackScheduler s.factoryCalls = none) :
    apply hw f s =
      (.failedUnavailable,
       { s with
           applyCalls := s.applyCalls + 1
           factoryCalls := s.factoryCalls + 1
           connectLog := s.connectLog ++ [s.callbackScheduler] }) := by
  simp [apply, initHal, hs, hc]

/-- `apply` with an empty slot and a succeeding factory behaves like `apply`
on the reconnected state: the new handle is stored and then the hardware call
proceeds against it. -/
theorem apply_empty_factory_ok (hw : Hardware) {T : Type} (f : HalFn T)
    (s : ControllerState) (h : Handle)
    (hs : s.connectedHal = none)
    (hc : hw.factory s.callbackScheduler s.factoryCalls = some h) :
    apply hw f s =
      (processHalResult (f h).1 h
        { s with
            connectedHal := some h
            applyCalls := s.applyCalls + 1
            factoryCalls := s.factoryCalls + 1
            connectLog := s.connectLog ++ [s.callbackScheduler]
            halCalls := s.halCalls ++ [h]
            scheduled := s.scheduled ++ (f h).2 }) := by
  simp [apply, initHal, hs, hc]

/-- Every `apply` invocation bumps the ghost `apply` counter by exactly one. -/
theorem apply_applyCalls (hw : Hardware) {T : Type} (f : HalFn T)
    (s : ControllerState) :
    ((apply hw f s).2).applyCalls = s.applyCalls + 1 := by
  cases hs : s.connectedHal with
  | none =>
      cases hc : hw.factory s.callbackScheduler s.factoryCalls with
      | none => rw [apply_empty_factory_fail hw f s hs hc]
      | some h =>
          rw [apply_empty_factory_ok hw f s h hs hc]
          cases hr : (f h).1 <;> simp [processHalResult]
  | some h =>
      rcases hf : f h with ⟨r, reqs⟩
      cases r with
      | ok v => rw [apply_connected_ok hw f s h v reqs hs hf]
      | failedUnsupported => rw [apply_connected_unsupported hw f s h reqs hs hf]
      | failedTransient =>
          rw [apply_connected_failure hw f s h _ reqs hs hf (Or.inl rfl)]
      | failedUnavailable =>
          rw [apply_connected_failure hw f s h _ reqs hs hf (Or.inr rfl)]

/-- `apply` never changes the connector identity or the scheduler identity. -/
theorem apply_frame (hw : Hardware) {T : Type} (f : HalFn T)
    (s : ControllerState) :
    ((apply hw f s).2).halConnector = s.halConnector ∧
    ((apply hw f s).2).callbackScheduler = s.callbackScheduler := by
  cases hs : s.connectedHal with
  | none =>
      cases hc : hw.factory s.callbackScheduler s.factoryCalls with
      | none => rw [apply_empty_factory_fail hw f s hs hc]; exact ⟨rfl, rfl⟩
      | some h =>
          rw [apply_empty_factory_ok hw f s h hs hc]
          cases hr : (f h).1 <;> simp [processHalResult]
  | some h =>
      rcases hf : f h with ⟨r, reqs⟩
      cases r with
      | ok v => rw [apply_connected_ok hw f s h v reqs hs hf]; exact ⟨rfl, rfl⟩
      | failedUnsupported =>
          rw [apply_connected_unsupported hw f s h reqs hs hf]; exact ⟨rfl, rfl⟩
      | failedTransient =>
          rw [apply_connected_failure hw f s h _ reqs hs hf (Or.inl rfl)]
          exact ⟨rfl, rfl⟩
      | failedUnavailable =>
          rw [apply_connected_failure hw f s h _ reqs hs hf (Or.inr rfl)]
          exact ⟨rfl, rfl⟩

/-- Whenever `apply` reports `FailedUnavailable`, the slot is empty
afterwards (either the factory failed and it was never filled, or the failed
hardware call's identity-checked clear emptied it). -/
theorem apply_unavailable_clears (hw : Hardware) {T : Type} (f : HalFn T)
    (s : ControllerState)
    (hres : (apply hw f s).1 = .failedUnavailable) :
    ((apply hw f s).2).connectedHal = none := by
  cases hs : s.connectedHal with
  | none =>
      cases hc : hw.factory s.callbackScheduler s.factoryCalls with
      | none => rw [apply_empty_factory_fail hw f s hs hc]; exact hs
      | some h =>
          rw [apply_empty_factory_ok hw f s h hs hc] at hres ⊢
          cases hr : (f h).1 <;> simp [processHalResult, hr] at hres ⊢
  | some h =>
      rcases hf : f h with ⟨r, reqs⟩
      cases r with
      | ok v => rw [apply_connected_ok hw f s h v reqs hs hf] at hres; cases hres
      | failedUnsupported =>
          rw [apply_connected_unsupported hw f s h reqs hs hf] at hres; cases hres
      | failedTransient =>
          rw [apply_connected_failure hw f s h _ reqs hs hf (Or.inl rfl)]
      | failedUnavailable =>
          rw [apply_connected_failure hw f s h _ reqs hs hf (Or.inr rfl)]

/-- Whenever `apply` reports a success or an unsupported operation, the slot
holds a handle afterwards. -/
theorem apply_not_unavailable_connected (hw : Hardware) {T : Type} (f : HalFn T)
    (s : ControllerState)
    (hres : (apply hw f s).1 ≠ .failedUnavailable) :
    ((apply hw f s).2).connectedHal.isSome := by
  cases hs : s.connectedHal with
  | none =>
      cases hc : hw.factory s.callbackScheduler s.factoryCalls with
      | none => rw [apply_empty_factory_fail hw f s hs hc] at hres; simp at hres
      | some h =>
          rw [apply_empty_factory_ok hw f s h hs hc] at hres ⊢
          cases hr : (f h).1 <;> simp [processHalResult, hr] at hres ⊢
  | some h =>
      rcases hf : f h with ⟨r, reqs⟩
      cases r with
      | ok v => rw [apply_connected_ok hw f s h v reqs hs hf]; simp [hs]
      | failedUnsupported =>
          rw [apply_connected_unsupported hw f s h reqs hs hf]; simp [hs]
      | failedTransient =>
          rw [apply_connected_failure hw f s h _ reqs hs hf (Or.inl rfl)] at hres
          simp at hres
      | failedUnavailable =>
          rw [apply_connected_failure hw f s h _ reqs hs hf (Or.inr rfl)] at hres
          simp at hres

/-- `apply` never surfaces `FailedTransient`: transient failures are
classified into `FailedUnavailable` before reaching the caller. -/
theorem apply_ne_transient (hw : Hardware) {T : Type} (f : HalFn T)
    (s : ControllerState) :
    (apply hw f s).1 ≠ .failedTransient := by
  cases hs : s.connectedHal with
  | none =>
      cases hc : hw.factory s.callbackScheduler s.factoryCalls with
      | none => rw [apply_empty_factory_fail hw f s hs hc]; simp
      | some h =>
          rw [apply_empty_factory_ok hw f s h hs hc]
          cases hr : (f h).1 <;> simp [processHalResult, hr]
  | some h =>
      rcases hf : f h with ⟨r, reqs⟩
      cases r with
      | ok v => rw [apply_connected_ok hw f s h v reqs hs hf]; simp
      | failedUnsupported =>
          rw [apply_connected_unsupported hw f s h reqs hs hf]; simp
      | failedTransient =>
          rw [apply_connected_failure hw f s h _ reqs hs hf (Or.inl rfl)]; simp
      | failedUnavailable =>
          rw [apply_connected_failure hw f s h _ reqs hs hf (Or.inr rfl)]; simp

/-! ### Characterization of the one-retry policy -/

/-- A first `apply` that does not report `FailedUnavailable` is final: the
public operation returns it unchanged and no second `apply` happens. -/
theorem applyRetry_first (hw : Hardware) {T : Type} (f : HalFn T)
    (s : ControllerState)
    (hres : (apply hw f s).1 ≠ .failedUnavailable) :
    applyRetry hw f s = apply hw f s := by
  unfold applyRetry
  rcases happ : apply hw f s with ⟨r, s1⟩
  cases r <;> simp_all

/-- A first `apply` that reports `FailedUnavailable` is followed by exactly
one more `apply`, whose result is returned to the caller unchanged. -/
theorem applyRetry_second (hw : Hardware) {T : Type} (f : HalFn T)
    (s : ControllerState)
    (hres : (apply hw f s).1 = .failedUnavailable) :
    applyRetry hw f s = apply hw f (apply hw f s).2 := by
  unfold applyRetry
  rcases happ : apply hw f s with ⟨r, s1⟩
  cases r <;> simp_all

/-- A public operation performs at most two `apply` invocations, and
performs the second exactly when the first reported `FailedUnavailable`. -/
theorem applyRetry_applyCalls (hw : Hardware) {T : Type} (f : HalFn T)
    (s : ControllerState) :
    ((apply hw f s).1 = .failedUnavailable →
      ((applyRetry hw f s).2).applyCalls = s.applyCalls + 2) ∧
    ((apply hw f s).1 ≠ .failedUnavailable →
      ((applyRetry hw f s).2).applyCalls = s.applyCalls + 1) := by
  constructor
  · intro hres
    rw [applyRetry_second hw f s hres, apply_applyCalls, apply_applyCalls]
  · intro hres
    rw [applyRetry_first hw f s hres, apply_applyCalls]

/-! ### Scheduling lemmas -/

/-- A hardware operation that forwards no schedule request unless the
command was accepted (the forward happens only after hardware acceptance). -/
def schedOnAcceptOnly {T : Type} (f : HalFn T) : Prop :=
  ∀ (h : Handle) (r : HalResult T) (reqs : List ScheduleReq),
    f h = (r, reqs) → (∀ v : T, r ≠ .ok v) → reqs = []

/-- If the hardware operation schedules only on acceptance and `apply` did
not succeed, the schedule log is unchanged: no schedule request was made. -/
theorem apply_sched_of_failure (hw : Hardware) {T : Type} (f : HalFn T)
    (s : ControllerState) (hsched : schedOnAcceptOnly f)
    (hres : ∀ v : T, (apply hw f s).1 ≠ .ok v) :
    ((apply hw f s).2).scheduled = s.scheduled := by
  cases hs : s.connectedHal with
  | none =>
      cases hc : hw.factory s.callbackScheduler s.factoryCalls with
      | none => rw [apply_empty_factory_fail hw f s hs hc]
      | some h =>
          rw [apply_empty_factory_ok hw f s h hs hc] at hres ⊢
          rcases hf : f h with ⟨r, reqs⟩
          cases r with
          | ok v =>
              exact absurd (by simp [hf, processHalResult]) (hres v)
          | failedUnsupported =>
              have : reqs = [] := hsched h _ reqs hf (by intro v hv; cases hv)
              simp [hf, processHalResult, this]
          | failedTransient =>
              have : reqs = [] := hsched h _ reqs hf (by intro v hv; cases hv)
              simp [hf, processHalResult, this]
          | failedUnavailable =>
              have : reqs = [] := hsched h _ reqs hf (by intro v hv; cases hv)
              simp [hf, processHalResult, this]
  | some h =>
      rcases hf : f h with ⟨r, reqs⟩
      cases r with
      | ok v =>
          rw [apply_connected_ok hw f s h v reqs hs hf] at hres
          exact absurd rfl (hres v)
      | failedUnsupported =>
          rw [apply_connected_unsupported hw f s h reqs hs hf]
          have : reqs = [] := hsched h _ reqs hf (by intro v hv; cases hv)
          simp [this]
      | failedTransient =>
          rw [apply_connected_failure hw f s h _ reqs hs hf (Or.inl rfl)]
          have : reqs = [] := hsched h _ reqs hf (by intro v hv; cases hv)
          simp [this]
      | failedUnavailable =>
          rw [apply_connected_failure hw f s h _ reqs hs hf (Or.inr rfl)]
          have : reqs = [] := hsched h _ reqs hf (by intro v hv; cases hv)
          simp [this]

/-- A successful `apply` appends exactly the requests forwarded by the one
hardware call it executed, which itself returned the same value. -/
theorem apply_sched_of_ok (hw : Hardware) {T : Type} (f : HalFn T)
    (s : ControllerState) (v : T)
    (hres : (apply hw f s).1 = .ok v) :
    ∃ h : Handle, (f h).1 = .ok v ∧
      ((apply hw f s).2).scheduled = s.scheduled ++ (f h).2 := by
  cases hs : s.connectedHal with
  | none =>
      cases hc : hw.factory s.callbackScheduler s.factoryCalls with
      | none => rw [apply_empty_factory_fail hw f s hs hc] at hres; cases hres
      | some h =>
          rw [apply_empty_factory_ok hw f s h hs hc] at hres ⊢
          refine ⟨h, ?_, ?_⟩
          · rcases hf : f h with ⟨r, reqs⟩
            cases r <;> simp [hf, processHalResult] at hres ⊢
            exact hres
          · rcases hf : f h with ⟨r, reqs⟩
            cases r <;> simp [hf, processHalResult] at hres ⊢
  | some h =>
      rcases hf : f h with ⟨r, reqs⟩
      cases r with
      | ok w =>
          rw [apply_connected_ok hw f s h w reqs hs hf] at hres ⊢
          cases hres
          exact ⟨h, by simp [hf], by simp [hf]⟩
      | failedUnsupported =>
          rw [apply_connected_unsupported hw f s h reqs hs hf] at hres; cases hres
      | failedTransient =>
          rw [apply_connected_failure hw f s h _ reqs hs hf (Or.inl rfl)] at hres
          cases hres
      | failedUnavailable =>
          rw [apply_connected_failure hw f s h _ reqs hs hf (Or.inr rfl)] at hres
          cases hres

/-- One-retry version of `apply_sched_of_failure`: a public operation that
did not succeed has submitted no schedule request at all. -/
theorem applyRetry_sched_of_failure (hw : Hardware) {T : Type} (f : HalFn T)
    (s : ControllerState) (hsched : schedOnAcceptOnly f)
    (hres : ∀ v : T, (applyRetry hw f s).1 ≠ .ok v) :
    ((applyRetry hw f s).2).scheduled = s.scheduled := by
  by_cases hfirst : (apply hw f s).1 = .failedUnavailable
  · rw [applyRetry_second hw f s hfirst] at hres ⊢
    have h1 : ((apply hw f s).2).scheduled = s.scheduled :=
      apply_sched_of_failure hw f s hsched (by intro v hv; rw [hfirst] at hv; cases hv)
    rw [apply_sched_of_failure hw f (apply hw f s).2 hsched hres, h1]
  · rw [applyRetry_first hw f s hfirst] at hres ⊢
    exact apply_sched_of_failure hw f s hsched hres

/-- One-retry version of `apply_sched_of_ok`: a public operation that
succeeded submitted exactly the requests of its one accepted hardware call. -/
theorem applyRetry_sched_of_ok (hw : Hardware) {T : Type} (f : HalFn T)
    (s : ControllerState) (v : T) (hsched : schedOnAcceptOnly f)
    (hres : (applyRetry hw f s).1 = .ok v) :
    ∃ h : Handle, (f h).1 = .ok v ∧
      ((applyRetry hw f s).2).scheduled = s.scheduled ++ (f h).2 := by
  by_cases hfirst : (apply hw f s).1 = .failedUnavailable
  · rw [applyRetry_second hw f s hfirst] at hres ⊢
    have h1 : ((apply hw f s).2).scheduled = s.scheduled :=
      apply_sched_of_failure hw f s hsched (by intro v hv; rw [hfirst] at hv; cases hv)
    rcases apply_sched_of_ok hw f (apply hw f s).2 v hres with ⟨h, hok, hsch⟩
    exact ⟨h, hok, by rw [hsch, h1]⟩
  · rw [applyRetry_first hw f s hfirst] at hres ⊢
    exact apply_sched_of_ok hw f s v hres

/-! ### Frame and connect-log lemmas for whole operations -/

/-- The one-retry wrapper never changes the connector identity or the
scheduler identity. -/
theorem applyRetry_frame (hw : Hardware) {T : Type} (f : HalFn T)
    (s : ControllerState) :
    ((applyRetry hw f s).2).halConnector = s.halConnector ∧
    ((applyRetry hw f s).2).callbackScheduler = s.callbackScheduler := by
  by_cases hfirst : (apply hw f s).1 = .failedUnavailable
  · rw [applyRetry_second hw f s hfirst]
    constructor
    · rw [(apply_frame hw f (apply hw f s).2).1, (apply_frame hw f s).1]
    · rw [(apply_frame hw f (apply hw f s).2).2, (apply_frame hw f s).2]
  · rw [applyRetry_first hw f s hfirst]
    exact apply_frame hw f s

/-- `apply` either leaves the connect log alone or appends one entry,
namely the controller's own scheduler reference. -/
theorem apply_connectLog (hw : Hardware) {T : Type} (f : HalFn T)
    (s : ControllerState) :
    ((apply hw f s).2).connectLog = s.connectLog ∨
    ((apply hw f s).2).connectLog = s.connectLog ++ [s.callbackScheduler] := by
  cases hs : s.connectedHal with
  | none =>
      cases hc : hw.factory s.callbackScheduler s.factoryCalls with
      | none => rw [apply_empty_factory_fail hw f s hs hc]; right; rfl
      | some h =>
          rw [apply_empty_factory_ok hw f s h hs hc]
          cases hr : (f h).1 <;> simp [processHalResult]
  | some h =>
      rcases hf : f h with ⟨r, reqs⟩
      cases r with
      | ok v => rw [apply_connected_ok hw f s h v reqs hs hf]; left; rfl
      | failedUnsupported =>
          rw [apply_connected_unsupported hw f s h reqs hs hf]; left; rfl
      | failedTransient =>
          rw [apply_connected_failure hw f s h _ reqs hs hf (Or.inl rfl)]; left; rfl
      | failedUnavailable =>
          rw [apply_connected_failure hw f s h _ reqs hs hf (Or.inr rfl)]; left; rfl

/-- Invariant carried by `apply`: if every scheduler reference handed to the
factory so far is the controller's own, this stays true. -/
theorem apply_connectLog_inv (hw : Hardware) {T : Type} (f : HalFn T)
    (s : ControllerState)
    (hinv : ∀ x ∈ s.connectLog, x = s.callbackScheduler) :
    ∀ x ∈ ((apply hw f s).2).connectLog, x = ((apply hw f s).2).callbackScheduler := by
  rw [(apply_frame hw f s).2]
  rcases apply_connectLog hw f s with hlog | hlog <;> rw [hlog]
  · exact hinv
  · intro x hx
    rcases List.mem_append.mp hx with hx | hx
    · exact hinv x hx
    · simpa using hx

/-- The connect-log invariant carried through the one-retry wrapper. -/
theorem applyRetry_connectLog_inv (hw : Hardware) {T : Type} (f : HalFn T)
    (s : ControllerState)
    (hinv : ∀ x ∈ s.connectLog, x = s.callbackScheduler) :
    ∀ x ∈ ((applyRetry hw f s).2).connectLog,
      x = ((applyRetry hw f s).2).callbackScheduler := by
  by_cases hfirst : (apply hw f s).1 = .failedUnavailable
  · rw [applyRetry_second hw f s hfirst]
    exact apply_connectLog_inv hw f _ (apply_connectLog_inv hw f s hinv)
  · rw [applyRetry_first hw f s hfirst]
    exact apply_connectLog_inv hw f s hinv

/-- `onFn` schedules only on acceptance, and on acceptance forwards exactly
one request: the timeout as deadline, bound to the caller's callback. -/
theorem onFn_sched (hw : Hardware) (timeoutMs : Nat) (cb : CallbackId) :
    schedOnAcceptOnly (onFn hw timeoutMs cb) ∧
    ∀ h : Handle, ∀ v, (onFn hw timeoutMs cb h).1 = .ok v →
      (onFn hw timeoutMs cb h).2 = [⟨timeoutMs, cb⟩] := by
  constructor
  · intro h r reqs hf hne
    cases hr : hw.onR h timeoutMs <;> simp [onFn, hr] at hf <;> try exact hf.2
    exact absurd hf.1.symm (hne ())
  · intro h v hok
    cases hr : hw.onR h timeoutMs <;> simp [onFn, hr] at hok ⊢

/-- `performEffectFn` schedules only on acceptance, and on acceptance
forwards exactly one request: the reported duration as deadline, bound to
the caller's callback. -/
theorem performEffectFn_sched (hw : Hardware) (effect : Effect)
    (strength : EffectStrength) (cb : CallbackId) :
    schedOnAcceptOnly (performEffectFn hw effect strength cb) ∧
    ∀ h : Handle, ∀ d, (performEffectFn hw effect strength cb h).1 = .ok d →
      (performEffectFn hw effect strength cb h).2 = [⟨d, cb⟩] := by
  constructor
  · intro h r reqs hf hne
    cases hr : hw.performEffectR h effect strength <;>
      simp [performEffectFn, hr] at hf <;> try exact hf.2
    exact absurd hf.1.symm (hne _)
  · intro h d hok
    cases hr : hw.performEffectR h effect strength <;>
      simp [performEffectFn, hr] at hok ⊢
    simp [hok]

/-- `performComposedEffectFn` schedules only on acceptance, and on
acceptance forwards exactly one request bound to the caller's callback. -/
theorem performComposedEffectFn_sched (hw : Hardware)
    (prims : List CompositeEffect) (cb : CallbackId) :
    schedOnAcceptOnly (performComposedEffectFn hw prims cb) ∧
    ∀ h : Handle, ∀ v, (performComposedEffectFn hw prims cb h).1 = .ok v →
      ∃ q : ScheduleReq, (performComposedEffectFn hw prims cb h).2 = [q] ∧
        q.callback = cb := by
  constructor
  · intro h r reqs hf hne
    cases hr : hw.performComposedEffectR h prims <;>
      simp [performComposedEffectFn, hr] at hf <;> try exact hf.2
    exact absurd hf.1.symm (hne ())
  · intro h v hok
    cases hr : hw.performComposedEffectR h prims <;>
      simp [performComposedEffectFn, hr] at hok ⊢

/-! ### Lock-serialized concurrent connection attempts -/

/-- The slot lock serializes concurrent `initHal` sections; `initHalSeq`
executes `n` such lock-protected sections back to back (the order in which
the contending callers won the lock). -/
def initHalSeq (hw : Hardware) : Nat → ControllerState → ControllerState
  | 0, s => s
  | n + 1, s => initHalSeq hw n (initHal hw s).2

/-- Once the slot is filled, further serialized `initHal` sections are
no-ops. -/
theorem initHalSeq_connected (hw : Hardware) (n : Nat) (s : ControllerState)
    (h : Handle) (hs : s.connectedHal = some h) :
    initHalSeq hw n s = s := by
  induction n with
  | zero => rfl
  | succ n ih =>
      show initHalSeq hw n (initHal hw s).2 = s
      rw [initHal_connected hw s h hs]
      exact ih

/-! ### Whole-run invariants -/

/-- Every public operation preserves the connector identity and the
scheduler identity stored at construction. -/
theorem step_frame (hw : Hardware) (op : Op) (s : ControllerState) :
    (step hw op s).halConnector = s.halConnector ∧
    (step hw op s).callbackScheduler = s.callbackScheduler := by
  cases op <;> exact applyRetry_frame hw _ s

/-- Every public operation carries the connect-log invariant: all scheduler
references ever handed to the factory are the controller's own. -/
theorem step_connectLog_inv (hw : Hardware) (op : Op) (s : ControllerState)
    (hinv : ∀ x ∈ s.connectLog, x = s.callbackScheduler) :
    ∀ x ∈ (step hw op s).connectLog, x = (step hw op s).callbackScheduler := by
  cases op <;> exact applyRetry_connectLog_inv hw _ s hinv

/-- A whole run of public operations preserves the scheduler identity and
the connect-log invariant. -/
theorem run_connectLog_inv (hw : Hardware) (ops : List Op) (s : ControllerState)
    (hinv : ∀ x ∈ s.connectLog, x = s.callbackScheduler) :
    (run hw ops s).callbackScheduler = s.callbackScheduler ∧
    ∀ x ∈ (run hw ops s).connectLog, x = s.callbackScheduler := by
  induction ops generalizing s with
  | nil => exact ⟨rfl, hinv⟩
  | cons op ops ih =>
      have hstep := step_frame hw op s
      have hlog := step_connectLog_inv hw op s hinv
      have hrest := ih (step hw op s) hlog
      constructor
      · show (run hw ops (step hw op s)).callbackScheduler = s.callbackScheduler
        rw [hrest.1, hstep.2]
      · show ∀ x ∈ (run hw ops (step hw op s)).connectLog, x = s.callbackScheduler
        intro x hx
        rw [hrest.2 x hx, hstep.2]

/-! ### The `HalWrapper` operation surface -/

/-- Modelled from the spec: the connection-handle operation surface
(`HalWrapper`) — one method per public controller operation, each returning
a tagged result, over an arbitrary state type. -/
structure HalWrapperSurface (σ : Type) where
  ping : σ → HalResult Unit × σ
  «on» : Nat → CallbackId → σ → HalResult Unit × σ
  off : σ → HalResult Unit × σ
  setAmplitude : Int → σ → HalResult Unit × σ
  setExternalControl : Bool → σ → HalResult Unit × σ
  alwaysOnEnable : Int → Effect → EffectStrength → σ → HalResult Unit × σ
  alwaysOnDisable : Int → σ → HalResult Unit × σ
  getCapabilities : σ → HalResult Capabilities × σ
  getSupportedEffects : σ → HalResult (List Effect) × σ
  performEffect : Effect → EffectStrength → CallbackId → σ → HalResult Nat × σ
  performComposedEffect :
    List CompositeEffect → CallbackId → σ → HalResult Unit × σ

/-- A raw connection handle's surface: each operation runs the hardware
function against the handle and appends its schedule requests to a log. -/
def handleAsWrapper (hw : Hardware) (h : Handle) :
    HalWrapperSurface (List ScheduleReq) :=
  { ping := fun log => ((pingFn hw h).1, log ++ (pingFn hw h).2)
    «on» := fun t cb log => ((onFn hw t cb h).1, log ++ (onFn hw t cb h).2)
    off := fun log => ((offFn hw h).1, log ++ (offFn hw h).2)
    setAmplitude := fun a log =>
      ((setAmplitudeFn hw a h).1, log ++ (setAmplitudeFn hw a h).2)
    setExternalControl := fun e log =>
      ((setExternalControlFn hw e h).1, log ++ (setExternalControlFn hw e h).2)
    alwaysOnEnable := fun i e st log =>
      ((alwaysOnEnableFn hw i e st h).1, log ++ (alwaysOnEnableFn hw i e st h).2)
    alwaysOnDisable := fun i log =>
      ((alwaysOnDisableFn hw i h).1, log ++ (alwaysOnDisableFn hw i h).2)
    getCapabilities := fun log =>
      ((getCapabilitiesFn hw h).1, log ++ (getCapabilitiesFn hw h).2)
    getSupportedEffects := fun log =>
      ((getSupportedEffectsFn hw h).1, log ++ (getSupportedEffectsFn hw h).2)
    performEffect := fun e st cb log =>
      ((performEffectFn hw e st cb h).1, log ++ (performEffectFn hw e st cb h).2)
    performComposedEffect := fun p cb log =>
      ((performComposedEffectFn hw p cb h).1,
       log ++ (performComposedEffectFn hw p cb h).2) }

/-- The controller substituted as a `HalWrapper`: every operation of the
surface is overridden by the corresponding public controller operation over
the controller state. -/
def controllerAsWrapper (hw : Hardware) : HalWrapperSurface ControllerState :=
  { ping := HalController.ping hw
    «on» := HalController.«on» hw
    off := HalController.off hw
    setAmplitude := HalController.setAmplitude hw
    setExternalControl := HalController.setExternalControl hw
    alwaysOnEnable := HalController.alwaysOnEnable hw
    alwaysOnDisable := HalController.alwaysOnDisable hw
    getCapabilities := HalController.getCapabilities hw
    getSupportedEffects := HalController.getSupportedEffects hw
    performEffect := HalController.performEffect hw
    performComposedEffect := HalController.performComposedEffect hw }

/-! ### Concrete fixtures -/

/-- A hardware oracle on which everything succeeds: the factory always
returns handle 7, every command is accepted, `performEffect` reports 20 ms
and `performComposedEffect` 35 ms. -/
def hwGood : Hardware :=
  { factory := fun _ _ => some 7
    pingR := fun _ => .ok ()
    onR := fun _ _ => .ok ()
    offR := fun _ => .ok ()
    setAmplitudeR := fun _ _ => .ok ()
    setExternalControlR := fun _ _ => .ok ()
    alwaysOnEnableR := fun _ _ _ _ => .ok ()
    alwaysOnDisableR := fun _ _ => .ok ()
    getCapabilitiesR := fun _ => .ok 3
    getSupportedEffectsR := fun _ => .ok [1, 2]
    performEffectR := fun _ _ _ => .ok 20
    performComposedEffectR := fun _ _ => .ok 35 }

/-- Like `hwGood`, but the factory never connects. -/
def hwDown : Hardware := { hwGood with factory := fun _ _ => none }

/-- Like `hwGood`, but handle 0 answers `ping`, `setAmplitude` and
`performEffect` with a transient failure while the factory hands out
handle 1, on which everything succeeds. -/
def hwFlaky : Hardware :=
  { hwGood with
      factory := fun _ _ => some 1
      pingR := fun h => if h = 0 then .failedTransient else .ok ()
      setAmplitudeR := fun h _ => if h = 0 then .failedTransient else .ok ()
      performEffectR := fun h _ _ => if h = 0 then .failedTransient else .ok 20 }

/-- Like `hwGood`, but every `ping` reports unsupported. -/
def hwUnsup : Hardware := { hwGood with pingR := fun _ => .failedUnsupported }

/-- A freshly constructed controller: connector id 0, scheduler id 5. -/
def s0 : ControllerState := mkHalController 0 5

/-- The fresh controller with handle 0 already current. -/
def sConn : ControllerState := { s0 with connectedHal := some 0 }

/-! ### The claims -/

/-- C1: every public controller operation (`ping`, `on`, `off`,
`setAmplitude`, `setExternalControl`, `alwaysOnEnable`, `alwaysOnDisable`,
`getCapabilities`, `getSupportedEffects`, `performEffect`,
`performComposedEffect`) is the one-retry wrapper over `apply`: it invokes
`apply` at most twice, invokes it a second time exactly when the first
result is `FailedUnavailable`, returns the second result to the caller
unchanged, and in particular surfaces `Ok` when the first `apply` failed
with `FailedUnavailable` and the second succeeded. -/
theorem retry_policy_masks_one_disconnect (hw : Hardware) :
    (∀ s, HalController.ping hw s = applyRetry hw (pingFn hw) s) ∧
    (∀ t cb s, HalController.«on» hw t cb s = applyRetry hw (onFn hw t cb) s) ∧
    (∀ s, HalController.off hw s = applyRetry hw (offFn hw) s) ∧
    (∀ a s, HalController.setAmplitude hw a s =
      applyRetry hw (setAmplitudeFn hw a) s) ∧
    (∀ e s, HalController.setExternalControl hw e s =
      applyRetry hw (setExternalControlFn hw e) s) ∧
    (∀ i e st s, HalController.alwaysOnEnable hw i e st s =
      applyRetry hw (alwaysOnEnableFn hw i e st) s) ∧
    (∀ i s, HalController.alwaysOnDisable hw i s =
      applyRetry hw (alwaysOnDisableFn hw i) s) ∧
    (∀ s, HalController.getCapabilities hw s =
      applyRetry hw (getCapabilitiesFn hw) s) ∧
    (∀ s, HalController.getSupportedEffects hw s =
      applyRetry hw (getSupportedEffectsFn hw) s) ∧
    (∀ e st cb s, HalController.performEffect hw e st cb s =
      applyRetry hw (performEffectFn hw e st cb) s) ∧
    (∀ p cb s, HalController.performComposedEffect hw p cb s =
      applyRetry hw (performComposedEffectFn hw p cb) s) ∧
    ∀ (T : Type) (f : HalFn T) (s : ControllerState),
      ((apply hw f s).1 ≠ .failedUnavailable →
        applyRetry hw f s = apply hw f s ∧
        ((applyRetry hw f s).2).applyCalls = s.applyCalls + 1) ∧
      ((apply hw f s).1 = .failedUnavailable →
        applyRetry hw f s = apply hw f (apply hw f s).2 ∧
        ((applyRetry hw f s).2).applyCalls = s.applyCalls + 2) ∧
      (∀ v : T, (apply hw f s).1 = .failedUnavailable →
        (apply hw f (apply hw f s).2).1 = .ok v →
        (applyRetry hw f s).1 = .ok v) := by
  refine ⟨fun _ => rfl, fun _ _ _ => rfl, fun _ => rfl, fun _ _ => rfl,
    fun _ _ => rfl, fun _ _ _ _ => rfl, fun _ _ => rfl, fun _ => rfl,
    fun _ => rfl, fun _ _ _ _ => rfl, fun _ _ _ => rfl, ?_⟩
  intro T f s
  refine ⟨fun hne => ⟨applyRetry_first hw f s hne,
            (applyRetry_applyCalls hw f s).2 hne⟩,
          fun heq => ⟨applyRetry_second hw f s heq,
            (applyRetry_applyCalls hw f s).1 heq⟩,
          fun v heq hok => ?_⟩
  rw [applyRetry_second hw f s heq]
  exact hok

/-- Witness for C1 on the flaky hardware: `ping` on a controller holding
handle 0 fails its first `apply` with `FailedUnavailable`, the retry against
reconnected handle 1 succeeds, and the caller sees `Ok`. -/
theorem retry_policy_masks_one_disconnect_witness :
    (apply hwFlaky (pingFn hwFlaky) sConn).1 = .failedUnavailable ∧
    (applyRetry hwFlaky (pingFn hwFlaky) sConn).1 = .ok () ∧
    (HalController.ping hwFlaky sConn).1 = .ok () := by
  have hmain :=
    (retry_policy_masks_one_disconnect
      hwFlaky).2.2.2.2.2.2.2.2.2.2.2 Unit (pingFn hwFlaky) sConn
  refine ⟨by decide, hmain.2.2 () (by decide) (by decide), ?_⟩
  exact hmain.2.2 () (by decide) (by decide)

/-- C2: a hardware failure other than success or unsupported is classified
as `FailedUnavailable` for this caller, and the classification clears the
current slot only if it still references the handle the call was executed
against — a slot already replaced by a newer handle is left unchanged.  At
the `apply` level a connected handle that fails this way is cleared. -/
theorem failure_clears_slot_only_if_same_handle (T : Type) (r : HalResult T)
    (h : Handle) (s : ControllerState)
    (hr : r = .failedTransient ∨ r = .failedUnavailable) :
    ((processHalResult r h s).1 = .failedUnavailable ∧
     (s.connectedHal = some h →
       (processHalResult r h s).2 = { s with connectedHal := none }) ∧
     (s.connectedHal ≠ some h → (processHalResult r h s).2 = s)) ∧
    ∀ (hw : Hardware) (f : HalFn T) (reqs : List ScheduleReq),
      s.connectedHal = some h → f h = (r, reqs) →
      apply hw f s =
        (.failedUnavailable,
         { s with
             connectedHal := none
             applyCalls := s.applyCalls + 1
             halCalls := s.halCalls ++ [h]
             scheduled := s.scheduled ++ reqs }) := by
  constructor
  · rw [processHalResult_failure r h s hr]
    exact ⟨rfl, fun hs => by simp [hs], fun hs => by simp [hs]⟩
  · intro hw f reqs hs hf
    exact apply_connected_failure hw f s h r reqs hs hf hr

/-- Witness for C2: classifying a transient failure from handle 3 clears a
slot still holding handle 3, leaves a slot holding handle 4 untouched, and
reports `FailedUnavailable` in both cases. -/
theorem failure_clears_slot_only_if_same_handle_witness :
    (processHalResult (.failedTransient : HalResult Unit) 3
      { s0 with connectedHal := some 3 }).2.connectedHal = none ∧
    (processHalResult (.failedTransient : HalResult Unit) 3
      { s0 with connectedHal := some 4 }).2 = { s0 with connectedHal := some 4 } ∧
    (processHalResult (.failedTransient : HalResult Unit) 3
      { s0 with connectedHal := some 3 }).1 = .failedUnavailable := by
  have h1 := failure_clears_slot_only_if_same_handle Unit .failedTransient 3
    { s0 with connectedHal := some 3 } (Or.inl rfl)
  have h2 := failure_clears_slot_only_if_same_handle Unit .failedTransient 3
    { s0 with connectedHal := some 4 } (Or.inl rfl)
  exact ⟨by rw [h1.1.2.1 (by decide)], h2.1.2.2 (by decide), h1.1.1⟩

/-- C3: `initHal` returns an existing handle without calling the factory;
on an empty slot it calls the factory exactly once, storing and returning
the new handle on success; on factory failure the slot stays empty, the call
is reported as `FailedUnavailable` for that call only, and the next
operation calls the factory again (no fatal state). -/
theorem initHal_connect_semantics (hw : Hardware) (s : ControllerState) :
    (∀ h, s.connectedHal = some h → initHal hw s = (some h, s)) ∧
    (s.connectedHal = none →
      ((initHal hw s).2).factoryCalls = s.factoryCalls + 1 ∧
      (∀ h, hw.factory s.callbackScheduler s.factoryCalls = some h →
        (initHal hw s).1 = some h ∧
        ((initHal hw s).2).connectedHal = some h) ∧
      (hw.factory s.callbackScheduler s.factoryCalls = none →
        (initHal hw s).1 = none ∧
        ((initHal hw s).2).connectedHal = none ∧
        (∀ (T : Type) (f : HalFn T), (apply hw f s).1 = .failedUnavailable) ∧
        ((initHal hw ((initHal hw s).2)).2).factoryCalls = s.factoryCalls + 2)) := by
  constructor
  · intro h hs
    exact initHal_connected hw s h hs
  · intro hs
    refine ⟨by rw [initHal_empty hw s hs], ?_, ?_⟩
    · intro h hc
      rw [initHal_empty hw s hs, hc]
      exact ⟨rfl, rfl⟩
    · intro hc
      refine ⟨by rw [initHal_empty hw s hs, hc], by rw [initHal_empty hw s hs, hc], ?_, ?_⟩
      · intro T f
        rw [apply_empty_factory_fail hw f s hs hc]
      · simp [initHal, hs, hc]

/-- Witness for C3: a connected controller is returned as-is by `initHal`;
with the factory down, `initHal` yields nothing, `ping` reports
`FailedUnavailable`, and the next `initHal` calls the factory again. -/
theorem initHal_connect_semantics_witness :
    initHal hwGood sConn = (some 0, sConn) ∧
    (initHal hwDown s0).1 = none ∧
    (apply hwDown (pingFn hwDown) s0).1 = .failedUnavailable ∧
    ((initHal hwDown ((initHal hwDown s0).2)).2).factoryCalls = 2 := by
  have h1 := initHal_connect_semantics hwGood sConn
  have h2 := (initHal_connect_semantics hwDown s0).2 (by decide)
  have h3 := h2.2.2 (by decide)
  exact ⟨h1.1 0 (by decide), h3.1, h3.2.2.1 Unit (pingFn hwDown), h3.2.2.2⟩

/-- C4: an unsupported hardware result is returned to the caller as
`FailedUnsupported` with the current slot unchanged, no factory call caused
by it, and no retry: on a connected controller the whole public operation is
one `apply` leaving the slot and the factory-call count exactly as before,
and in general an unsupported first `apply` is final. -/
theorem unsupported_no_reconnect_no_retry (hw : Hardware) (T : Type)
    (f : HalFn T) (s : ControllerState) :
    (∀ (h : Handle) (reqs : List ScheduleReq),
      s.connectedHal = some h → f h = (.failedUnsupported, reqs) →
      applyRetry hw f s =
        (.failedUnsupported,
         { s with
             applyCalls := s.applyCalls + 1
             halCalls := s.halCalls ++ [h]
             scheduled := s.scheduled ++ reqs })) ∧
    ((apply hw f s).1 = .failedUnsupported → applyRetry hw f s = apply hw f s) := by
  constructor
  · intro h reqs hs hf
    have happ := apply_connected_unsupported hw f s h reqs hs hf
    rw [applyRetry_first hw f s (by rw [happ]; simp), happ]
  · intro hres
    exact applyRetry_first hw f s (by rw [hres]; simp)

/-- Witness for C4: on hardware whose `ping` is unsupported, a connected
controller returns `FailedUnsupported`, keeps handle 0 current, never calls
the factory, and performs a single `apply`. -/
theorem unsupported_no_reconnect_no_retry_witness :
    (HalController.ping hwUnsup sConn).1 = .failedUnsupported ∧
    ((HalController.ping hwUnsup sConn).2).connectedHal = some 0 ∧
    ((HalController.ping hwUnsup sConn).2).factoryCalls = 0 ∧
    ((HalController.ping hwUnsup sConn).2).applyCalls = 1 := by
  have h := (unsupported_no_reconnect_no_retry hwUnsup Unit
    (pingFn hwUnsup) sConn).1 0 [] (by decide) (by decide)
  have h' : HalController.ping hwUnsup sConn =
      (.failedUnsupported,
       { sConn with
           applyCalls := sConn.applyCalls + 1
           halCalls := sConn.halCalls ++ [0]
           scheduled := sConn.scheduled ++ [] }) := h
  rw [h']
  refine ⟨rfl, by decide, by decide, by decide⟩

/-- C5: for the callback-carrying operations (`on`, `performEffect`,
`performComposedEffect`) the forward to the Completion Scheduler happens
only after hardware acceptance: an operation that did not succeed has
submitted no schedule request; a successful `performEffect` reporting
duration `d` submits exactly one request with deadline `d` bound to the
caller's callback (`on` schedules its timeout, `performComposedEffect`
exactly one request bound to the callback). -/
theorem schedule_only_after_acceptance (hw : Hardware) (t : Nat) (e : Effect)
    (st : EffectStrength) (prims : List CompositeEffect) (cb : CallbackId)
    (s : ControllerState) :
    ((∀ v, (HalController.«on» hw t cb s).1 ≠ .ok v) →
      ((HalController.«on» hw t cb s).2).scheduled = s.scheduled) ∧
    ((∀ v, (HalController.performEffect hw e st cb s).1 ≠ .ok v) →
      ((HalController.performEffect hw e st cb s).2).scheduled = s.scheduled) ∧
    ((∀ v, (HalController.performComposedEffect hw prims cb s).1 ≠ .ok v) →
      ((HalController.performComposedEffect hw prims cb s).2).scheduled =
        s.scheduled) ∧
    (∀ d, (HalController.performEffect hw e st cb s).1 = .ok d →
      ((HalController.performEffect hw e st cb s).2).scheduled =
        s.scheduled ++ [⟨d, cb⟩]) ∧
    (∀ v, (HalController.«on» hw t cb s).1 = .ok v →
      ((HalController.«on» hw t cb s).2).scheduled = s.scheduled ++ [⟨t, cb⟩]) ∧
    (∀ v, (HalController.performComposedEffect hw prims cb s).1 = .ok v →
      ∃ q : ScheduleReq,
        ((HalController.performComposedEffect hw prims cb s).2).scheduled =
          s.scheduled ++ [q] ∧ q.callback = cb) := by
  refine ⟨?_, ?_, ?_, ?_, ?_, ?_⟩
  · intro hres
    exact applyRetry_sched_of_failure hw (onFn hw t cb) s (onFn_sched hw t cb).1 hres
  · intro hres
    exact applyRetry_sched_of_failure hw (performEffectFn hw e st cb) s
      (performEffectFn_sched hw e st cb).1 hres
  · intro hres
    exact applyRetry_sched_of_failure hw (performComposedEffectFn hw prims cb) s
      (performComposedEffectFn_sched hw prims cb).1 hres
  · intro d hres
    rcases applyRetry_sched_of_ok hw (performEffectFn hw e st cb) s d
      (performEffectFn_sched hw e st cb).1 hres with ⟨h, hok, hsch⟩
    show ((applyRetry hw (performEffectFn hw e st cb) s).2).scheduled = _
    rw [hsch, (performEffectFn_sched hw e st cb).2 h d hok]
  · intro v hres
    rcases applyRetry_sched_of_ok hw (onFn hw t cb) s v
      (onFn_sched hw t cb).1 hres with ⟨h, hok, hsch⟩
    show ((applyRetry hw (onFn hw t cb) s).2).scheduled = _
    rw [hsch, (onFn_sched hw t cb).2 h v hok]
  · intro v hres
    rcases applyRetry_sched_of_ok hw (performComposedEffectFn hw prims cb) s v
      (performComposedEffectFn_sched hw prims cb).1 hres with ⟨h, hok, hsch⟩
    rcases (performComposedEffectFn_sched hw prims cb).2 h v hok with ⟨q, hq, hqcb⟩
    refine ⟨q, ?_, hqcb⟩
    show ((applyRetry hw (performComposedEffectFn hw prims cb) s).2).scheduled = _
    rw [hsch, hq]

/-- Witness for C5: on good hardware `performEffect` reports 20 ms and the
scheduler receives exactly one request for 20 ms bound to callback 9; with
the factory down, no schedule request is made. -/
theorem schedule_only_after_acceptance_witness :
    (HalController.performEffect hwGood 1 2 9 s0).1 = .ok 20 ∧
    ((HalController.performEffect hwGood 1 2 9 s0).2).scheduled =
      [⟨20, 9⟩] ∧
    ((HalController.performEffect hwDown 1 2 9 s0).2).scheduled = [] := by
  have h1 := (schedule_only_after_acceptance hwGood 10 1 2 [] 9 s0).2.2.2.1 20
    (by decide)
  have h2 := (schedule_only_after_acceptance hwDown 10 1 2 [] 9 s0).2.1
    (by
      intro v hv
      have hx : (HalController.performEffect hwDown 1 2 9 s0).1 =
          .failedUnavailable := by decide
      rw [hx] at hv
      cases hv)
  exact ⟨by decide, h1, h2⟩

/-- The two-state connection abstraction of the controller. -/
inductive ConnState where
  | disconnected
  | connected
deriving DecidableEq, Repr

/-- A controller is `connected` exactly when the current-handle slot is
non-empty. -/
def connState (s : ControllerState) : ConnState :=
  match s.connectedHal with
  | none => .disconnected
  | some _ => .connected

/-- C6: the connection state machine — a freshly constructed controller is
`disconnected`; from an empty slot the slot content after `initHal` is
exactly the factory's answer (so `disconnected → connected` happens only on
a successful factory call); every `apply` that reports `FailedUnavailable`
leaves the controller `disconnected` while any other outcome leaves it
`connected`; and no state is terminal: from `disconnected`, a successful
factory call plus an accepted command yields `Ok` again. -/
theorem connection_state_machine (hw : Hardware) :
    (∀ c k, connState (mkHalController c k) = .disconnected) ∧
    (∀ s : ControllerState, s.connectedHal = none →
      ((initHal hw s).2).connectedHal =
        hw.factory s.callbackScheduler s.factoryCalls) ∧
    (∀ (T : Type) (f : HalFn T) (s : ControllerState),
      ((apply hw f s).1 = .failedUnavailable →
        connState ((apply hw f s).2) = .disconnected) ∧
      ((apply hw f s).1 ≠ .failedUnavailable →
        connState ((apply hw f s).2) = .connected)) ∧
    (∀ (T : Type) (f : HalFn T) (s : ControllerState) (h : Handle) (v : T)
        (reqs : List ScheduleReq),
      connState s = .disconnected →
      hw.factory s.callbackScheduler s.factoryCalls = some h →
      f h = (.ok v, reqs) → (apply hw f s).1 = .ok v) := by
  refine ⟨fun c k => rfl, ?_, ?_, ?_⟩
  · intro s hs
    rw [initHal_empty hw s hs]
  · intro T f s
    constructor
    · intro hres
      simp [connState, apply_unavailable_clears hw f s hres]
    · intro hres
      have hsome := apply_not_unavailable_connected hw f s hres
      rcases hslot : ((apply hw f s).2).connectedHal with _ | h
      · rw [hslot] at hsome; cases hsome
      · simp [connState, hslot]
  · intro T f s h v reqs hds hc hf
    have hs : s.connectedHal = none := by
      rcases hslot : s.connectedHal with _ | h'
      · rfl
      · simp [connState, hslot] at hds
    rw [apply_empty_factory_ok hw f s h hs hc, hf]
    rfl

/-- Witness for C6: the fresh controller is disconnected; a successful
`ping` leaves it connected; with the factory down the call reports
`FailedUnavailable` and the controller is disconnected; reconnecting from
`disconnected` on good hardware yields `Ok`. -/
theorem connection_state_machine_witness :
    connState (mkHalController 0 5) = .disconnected ∧
    connState ((apply hwGood (pingFn hwGood) s0).2) = .connected ∧
    connState ((apply hwDown (pingFn hwDown) s0).2) = .disconnected ∧
    (apply hwGood (pingFn hwGood) s0).1 = .ok () := by
  refine ⟨(connection_state_machine hwGood).1 0 5, ?_, ?_, ?_⟩
  · exact ((connection_state_machine hwGood).2.2.1 Unit (pingFn hwGood) s0).2
      (by decide)
  · exact ((connection_state_machine hwDown).2.2.1 Unit (pingFn hwDown) s0).1
      (by decide)
  · exact (connection_state_machine hwGood).2.2.2 Unit (pingFn hwGood) s0 7 ()
      [] (by decide) (by decide) (by decide)

/-- C7: with the slot empty and the window's factory call succeeding, the
lock-serialized `initHal` sections of any number of concurrent callers make
exactly one factory call — the first section connects and every later one
returns the stored handle — and no hardware call is executed inside the
lock-protected section. -/
theorem single_factory_call_under_contention (hw : Hardware)
    (s : ControllerState) (h : Handle) (n : Nat)
    (hs : s.connectedHal = none)
    (hc : hw.factory s.callbackScheduler s.factoryCalls = some h)
    (hn : 1 ≤ n) :
    (initHalSeq hw n s).factoryCalls = s.factoryCalls + 1 ∧
    (initHalSeq hw n s).connectedHal = some h ∧
    (∀ t : ControllerState, ((initHal hw t).2).halCalls = t.halCalls) := by
  cases n with
  | zero => exact absurd hn (by omega)
  | succ m =>
      have h1 : (initHal hw s).2 =
          { s with
              connectedHal := some h
              factoryCalls := s.factoryCalls + 1
              connectLog := s.connectLog ++ [s.callbackScheduler] } := by
        rw [initHal_empty hw s hs, hc]
      show (initHalSeq hw m (initHal hw s).2).factoryCalls = s.factoryCalls + 1 ∧
        (initHalSeq hw m (initHal hw s).2).connectedHal = some h ∧
        ∀ t : ControllerState, ((initHal hw t).2).halCalls = t.halCalls
      rw [h1, initHalSeq_connected hw m _ h rfl]
      exact ⟨rfl, rfl, fun t => (initHal_frame hw t).2.2.2.1⟩

/-- Witness for C7: three contending callers on a fresh controller with a
working factory produce exactly one factory call and end connected to
handle 7. -/
theorem single_factory_call_under_contention_witness :
    (initHalSeq hwGood 3 s0).factoryCalls = 1 ∧
    (initHalSeq hwGood 3 s0).connectedHal = some 7 := by
  have h := single_factory_call_under_contention hwGood s0 7 3 (by decide)
    (by decide) (by omega)
  exact ⟨h.1, h.2.1⟩

/-- C8: the controller is itself a `HalWrapper`: it instantiates the same
operation surface a raw connection handle instantiates, overriding every
operation — `ping` through `performComposedEffect` — with the controller
operation of identical signature, so it substitutes wherever a handle
surface is expected and its observable operation set equals the handle's. -/
theorem controller_is_a_halWrapper (hw : Hardware) :
    (controllerAsWrapper hw).ping = HalController.ping hw ∧
    (controllerAsWrapper hw).«on» = HalController.«on» hw ∧
    (controllerAsWrapper hw).off = HalController.off hw ∧
    (controllerAsWrapper hw).setAmplitude = HalController.setAmplitude hw ∧
    (controllerAsWrapper hw).setExternalControl =
      HalController.setExternalControl hw ∧
    (controllerAsWrapper hw).alwaysOnEnable = HalController.alwaysOnEnable hw ∧
    (controllerAsWrapper hw).alwaysOnDisable = HalController.alwaysOnDisable hw ∧
    (controllerAsWrapper hw).getCapabilities = HalController.getCapabilities hw ∧
    (controllerAsWrapper hw).getSupportedEffects =
      HalController.getSupportedEffects hw ∧
    (controllerAsWrapper hw).performEffect = HalController.performEffect hw ∧
    (controllerAsWrapper hw).performComposedEffect =
      HalController.performComposedEffect hw :=
  ⟨rfl, rfl, rfl, rfl, rfl, rfl, rfl, rfl, rfl, rfl, rfl⟩

/-- C9: the only controller field a public operation may modify is the
current-handle slot `mConnectedHal`: the connector and the scheduler stored
at construction are unchanged by every operation. -/
theorem operations_modify_only_connected_slot (hw : Hardware) (op : Op)
    (s : ControllerState) :
    (step hw op s).halConnector = s.halConnector ∧
    (step hw op s).callbackScheduler = s.callbackScheduler :=
  step_frame hw op s

/-- C10: every handle the controller ever obtains was requested by passing
the controller's own single scheduler instance to the factory: after any
sequence of public operations from a freshly constructed controller, the
scheduler identity is still the constructed one and every scheduler
reference ever handed to the factory equals it. -/
theorem handles_share_one_scheduler (hw : Hardware) (c k : Nat)
    (ops : List Op) :
    (run hw ops (mkHalController c k)).callbackScheduler = k ∧
    ∀ x ∈ (run hw ops (mkHalController c k)).connectLog, x = k :=
  run_connectLog_inv hw ops (mkHalController c k) (by simp [mkHalController])

/-- Witness for C10: a flaky `ping` run (connect, fail, reconnect) keeps
scheduler 5 and has logged only scheduler 5 to the factory. -/
theorem handles_share_one_scheduler_witness :
    (run hwFlaky [Op.ping] (mkHalController 0 5)).callbackScheduler = 5 ∧
    5 ∈ (run hwFlaky [Op.ping] (mkHalController 0 5)).connectLog ∧
    ∃ x, x ∈ (run hwFlaky [Op.ping] (mkHalController 0 5)).connectLog ∧
      x = 5 := by
  have h := handles_share_one_scheduler hwFlaky 0 5 [Op.ping]
  refine ⟨h.1, by decide, 5, by decide, h.2 5 (by decide)⟩

end Vibrator
